import Mathlib

/-!
Shallow embedding of the chapter-extraction routines of
`src/epub/epub_processor.py`.

Documents are modelled after the parsed BeautifulSoup tree the code walks:
a document (soup) is a list of top-level nodes, each node being either a
raw text node (`NavigableString`) or an element node carrying its tag
name, optional `id` attribute (the only attribute the code reads) and
child nodes.  Encoding detection and HTML parsing are abstracted away:
each book item directly stores its parsed tree, since the code always
parses `item.get_content()` the same way before use.

`print` diagnostics are modelled as an explicit log: each extraction
routine returns the extracted text together with the list of diagnostic
lines it prints, in order.
-/

inductive Node where
  | text : String → Node
  | elem : String → Option String → List Node → Node
deriving Repr

mutual
/-- Structural equality on parsed nodes: BeautifulSoup `==` compares tag
name, attributes and contents by value. -/
def nodeEq : Node → Node → Bool
  | .text s, .text t => s == t
  | .elem t1 i1 c1, .elem t2 i2 c2 => t1 == t2 && i1 == i2 && nodesEq c1 c2
  | _, _ => false

/-- Structural equality on node lists, pointwise. -/
def nodesEq : List Node → List Node → Bool
  | [], [] => true
  | a :: as, b :: bs => nodeEq a b && nodesEq as bs
  | _, _ => false
end

abbrev Soup := List Node

/-- Python `str.strip()`: remove leading and trailing whitespace. -/
def pyStrip (s : String) : String :=
  ⟨((s.data.dropWhile Char.isWhitespace).reverse.dropWhile Char.isWhitespace).reverse⟩

/-- Whether the first character list starts the second one. -/
def charsLead : List Char → List Char → Bool
  | [], _ => true
  | _ :: _, [] => false
  | p :: ps, c :: cs => p == c && charsLead ps cs

/-- Whether the first character list occurs contiguously inside the second. -/
def charsInside : List Char → List Char → Bool
  | pat, [] => pat.isEmpty
  | pat, c :: cs => charsLead pat (c :: cs) || charsInside pat cs

/-- Python `pat in hay` on strings: substring containment.  Note that the
empty pattern is contained in every string. -/
def strContains (hay pat : String) : Bool := charsInside pat.data hay.data

/-- The `id` attribute of a node: only element nodes can carry one. -/
def nodeId : Node → Option String
  | .text _ => none
  | .elem _ i _ => i

mutual
/-- BeautifulSoup `get_text()` on a single node: the concatenation of all
descendant text-node strings, with no separator. -/
def Node.getText : Node → String
  | .text s => s
  | .elem _ _ cs => getTextList cs

/-- BeautifulSoup `get_text()` lifted to a list of sibling nodes (used for
the whole soup and for element children). -/
def getTextList : List Node → String
  | [] => ""
  | n :: ns => n.getText ++ getTextList ns
end

mutual
/-- BeautifulSoup `soup.find(id=anchor)`: first node in document (pre-)
order whose `id` equals the anchor, returned together with its preceding
siblings (in original order) and its following siblings. -/
def findCtx : List Node → String → Option (Node × List Node × List Node)
  | [], _ => none
  | n :: ns, a =>
      if nodeId n = some a then some (n, [], ns)
      else
        match findCtxNode n a with
        | some r => some r
        | none =>
            match findCtx ns a with
            | some (e, pre, post) => some (e, n :: pre, post)
            | none => none

/-- Search for an anchor inside one node (descends into element children). -/
def findCtxNode : Node → String → Option (Node × List Node × List Node)
  | .text _, _ => none
  | .elem _ _ cs, a => findCtx cs a
end

/-- Contribution of a list of sibling nodes, in order: an element node with
a (truthy, i.e. non-empty) tag name contributes its full `get_text()`; a
raw string node contributes its stripped content; anything else is
skipped.  This is the shared sibling loop body of the three extraction
helpers. -/
def siblingFragments : List Node → List String
  | [] => []
  | .elem t i cs :: rest =>
      if t.isEmpty then siblingFragments rest
      else Node.getText (.elem t i cs) :: siblingFragments rest
  | .text s :: rest => pyStrip s :: siblingFragments rest

/-- Fragments of the found element itself: its text when non-empty
(`if element.get_text():`). -/
def ownTextFragments (e : Node) : List String :=
  if (Node.getText e).isEmpty then [] else [Node.getText e]

/-- Python `extract_text_after_anchor(soup, anchor)`: the anchor node's own
text (when non-empty) followed by each following sibling's text, joined by
newline; `("", [diagnostic])` when the anchor is not found. -/
def extract_text_after_anchor (soup : Soup) (anchor : String) :
    String × List String :=
  match findCtx soup anchor with
  | none => ("", ["Anchor not found in the document."])
  | some (e, _, post) =>
      (String.intercalate "\n" (ownTextFragments e ++ siblingFragments post), [])

/-- Python `extract_text_before_anchor(soup, anchor)`: the texts of the
siblings preceding the anchor node, in original order, joined by newline
and stripped; `("", [diagnostic])` when the anchor is not found. -/
def extract_text_before_anchor (soup : Soup) (anchor : String) :
    String × List String :=
  match findCtx soup anchor with
  | none => ("", ["Anchor not found in the document."])
  | some (_, pre, _) =>
      (pyStrip (String.intercalate "\n" (siblingFragments pre)), [])

/-- Siblings before the first one equal (as in Python `==`, structural
equality on parsed nodes) to the end element: the `break` in the
between-anchors loop. -/
def takeUntilEnd (endE : Node) : List Node → List Node
  | [] => []
  | n :: ns => if nodeEq n endE then [] else n :: takeUntilEnd endE ns

/-- Python `extract_text_between_anchors(soup, start_anchor, end_anchor)`:
falls back to before/after extraction when an anchor node is missing;
otherwise the start node's own text plus following siblings up to
(excluding) the end node, joined by newline and stripped. -/
def extract_text_between_anchors (soup : Soup) (s e : String) :
    String × List String :=
  match findCtx soup s with
  | none => extract_text_before_anchor soup e
  | some (se, _, post) =>
      match findCtx soup e with
      | none => extract_text_after_anchor soup s
      | some (ee, _, _) =>
          (pyStrip (String.intercalate "\n"
              (ownTextFragments se ++ siblingFragments (takeUntilEnd ee post))),
           [])

/-- An ebooklib item: a stored file name and its parsed content tree. -/
structure Item where
  file_name : String
  content : Soup
deriving Repr

/-- A node of the table of contents: an `epub.Link` leaf or a
`(Section, children)` tuple. -/
inductive TocNode where
  | link : String → String → TocNode
  | group : String → List TocNode → TocNode
deriving Repr

/-- A book: its ordered item collection (`get_items()`) and its table of
contents (`book.toc`). -/
structure Book where
  items : List Item
  toc : List TocNode
deriving Repr

/-- Python `href.split("#")[0]`: the document-name component. -/
def hrefName (href : String) : String :=
  ⟨href.data.takeWhile (fun c => c ≠ '#')⟩

/-- Python `href.split("#")[1] if "#" in href else ""`: the anchor
component. -/
def hrefAnchor (href : String) : String :=
  match href.data.dropWhile (fun c => c ≠ '#') with
  | [] => ""
  | _ :: t => ⟨t.takeWhile (fun c => c ≠ '#')⟩

/-- First item whose stored file name contains the given name as a
substring (the lookup loop of the same-document branch). -/
def findItem : List Item → String → Option Item
  | [], _ => none
  | it :: rest, nm =>
      if strContains it.file_name nm then some it else findItem rest nm

/-- One iteration of the multi-document scan of
`extract_text_by_bookmark`: state is `(flag, text, printed lines)`. -/
def bookStep (sn sa en ea : String) (st : Bool × String × List String)
    (item : Item) : Bool × String × List String :=
  if strContains item.file_name sn then
    if ¬ sa.isEmpty then
      let r := extract_text_after_anchor item.content sa
      (true, st.2.1 ++ r.1, st.2.2 ++ r.2)
    else (true, st.2.1 ++ getTextList item.content, st.2.2)
  else if strContains item.file_name en then
    if ¬ ea.isEmpty then
      let r := extract_text_before_anchor item.content ea
      (false, st.2.1 ++ r.1, st.2.2 ++ r.2)
    else (false, st.2.1, st.2.2)
  else if st.1 then (st.1, st.2.1 ++ getTextList item.content, st.2.2)
  else st

/-- What the start branch of the scan contributes for a matching item:
after-anchor extraction when a start anchor is present, else the item's
whole text. -/
def startContrib (sa : String) (it : Item) : String × List String :=
  if ¬ sa.isEmpty then extract_text_after_anchor it.content sa
  else (getTextList it.content, [])

/-- What the end branch of the scan contributes for a matching item:
before-anchor extraction when an end anchor is present, else nothing. -/
def endContrib (ea : String) (it : Item) : String × List String :=
  if ¬ ea.isEmpty then extract_text_before_anchor it.content ea
  else ("", [])

/-- Concatenation of the full texts of a list of items, no separator. -/
def concatTexts : List Item → String
  | [] => ""
  | it :: rest => getTextList it.content ++ concatTexts rest

/-- Python `extract_text_by_bookmark(book, start_href, end_href)`.
When the start and end document names coincide, the first matching item is
sliced between the two anchors; otherwise the ordered item collection is
scanned with the flag automaton above. -/
def extract_text_by_bookmark (book : Book) (start_href : String)
    (end_href : String := "") : String × List String :=
  let sn := hrefName start_href
  let en := hrefName end_href
  let sa := hrefAnchor start_href
  let ea := hrefAnchor end_href
  if sn = en then
    match findItem book.items sn with
    | some item => extract_text_between_anchors item.content sa ea
    | none => ("", ["href not found."])
  else
    let st := book.items.foldl (bookStep sn sa en ea) (false, "", [])
    (st.2.1, st.2.2)

mutual
/-- Python `extract_bookmarks(toc, prefix)` with its `titles` accumulator
made explicit (the Python builds `titles` with `append` while looping;
recursing into a `(Section, children)` tuple restarts it at `[]`). -/
def extract_bookmarksAux : List TocNode → String → List String →
    List (String × String)
  | [], _, _ => []
  | .link t href :: rest, pre, titles =>
      let title := if pre.isEmpty then t else pre ++ "|" ++ t
      let titles2 := titles ++ [title]
      let title2 :=
        if title ∈ titles2.dropLast then
          title ++ toString (titles2.count title + 1)
        else title
      (title2, href) :: extract_bookmarksAux rest pre titles2
  | .group t children :: rest, pre, titles =>
      extract_bookmarksGroup (.group t children) ++
        extract_bookmarksAux rest pre titles

/-- The recursive call made for a `(Section, children)` tuple: a fresh
traversal of the children with the section title as prefix and an empty
`titles` accumulator. -/
def extract_bookmarksGroup : TocNode → List (String × String)
  | .link _ _ => []
  | .group t children => extract_bookmarksAux children t []
end

/-- Python `extract_bookmarks(toc, prefix="")`. -/
def extract_bookmarks (toc : List TocNode) (pre : String := "") :
    List (String × String) :=
  extract_bookmarksAux toc pre []

/-- One output record of `split_text_by_bookmarks`. -/
structure Chapter where
  title : String
  content : String
deriving Repr, DecidableEq

/-- The loop body of `split_text_by_bookmarks`: each bookmark is paired
with the next bookmark's href (`bookmarks[i+1][1] if i < n-1 else ""`). -/
def chaptersOf (book : Book) : List (String × String) → List Chapter
  | [] => []
  | (title, href) :: rest =>
      let end_href := match rest with
        | (_, h) :: _ => h
        | [] => ""
      ⟨title, (extract_text_by_bookmark book href end_href).1⟩ ::
        chaptersOf book rest

/-- Python `split_text_by_bookmarks(book)`. -/
def split_text_by_bookmarks (book : Book) : List Chapter :=
  chaptersOf book (extract_bookmarks book.toc)

/-! ## Helper lemmas -/

theorem chaptersOf_map_title (book : Book) :
    ∀ l : List (String × String),
      (chaptersOf book l).map Chapter.title = l.map Prod.fst
  | [] => rfl
  | (t, h) :: rest => by
      simp [chaptersOf, chaptersOf_map_title book rest]

theorem takeUntilEnd_eq_self (e : Node) :
    ∀ ns : List Node, (∀ n ∈ ns, nodeEq n e = false) → takeUntilEnd e ns = ns
  | [], _ => rfl
  | n :: ns, h => by
      have h1 := h n (by simp)
      have h2 := takeUntilEnd_eq_self e ns (fun m hm => h m (by simp [hm]))
      simp [takeUntilEnd, h1, h2]

theorem findItem_eq_none (nm : String) :
    ∀ l : List Item, (∀ it ∈ l, strContains it.file_name nm = false) →
      findItem l nm = none
  | [], _ => rfl
  | it :: rest, h => by
      have h1 := h it (by simp)
      have h2 := findItem_eq_none nm rest (fun x hx => h x (by simp [hx]))
      simp [findItem, h1, h2]

theorem bookStep_start (sn sa en ea : String) (it : Item)
    (st : Bool × String × List String)
    (h : strContains it.file_name sn = true) :
    bookStep sn sa en ea st it
      = (true, st.2.1 ++ (startContrib sa it).1,
         st.2.2 ++ (startContrib sa it).2) := by
  by_cases hsa : sa.isEmpty <;> simp [bookStep, startContrib, h, hsa]

theorem bookStep_end (sn sa en ea : String) (it : Item)
    (st : Bool × String × List String)
    (h1 : strContains it.file_name sn = false)
    (h2 : strContains it.file_name en = true) :
    bookStep sn sa en ea st it
      = (false, st.2.1 ++ (endContrib ea it).1,
         st.2.2 ++ (endContrib ea it).2) := by
  by_cases hea : ea.isEmpty <;> simp [bookStep, endContrib, h1, h2, hea]

theorem foldl_interior (sn sa en ea : String) :
    ∀ mid : List Item,
      (∀ m ∈ mid, strContains m.file_name sn = false ∧
        strContains m.file_name en = false) →
      ∀ text logs, List.foldl (bookStep sn sa en ea) (true, text, logs) mid
        = (true, text ++ concatTexts mid, logs)
  | [], _, text, logs => by simp [concatTexts]
  | m :: mid, h, text, logs => by
      have h1 := h m (by simp)
      have h2 := foldl_interior sn sa en ea mid
        (fun x hx => h x (by simp [hx]))
        (text ++ getTextList m.content) logs
      simp [bookStep, h1.1, h1.2, h2, concatTexts, String.append_assoc]

theorem foldl_multidoc (sn sa en ea : String) (a c : Item)
    (mid : List Item)
    (ha : strContains a.file_name sn = true)
    (hmid : ∀ m ∈ mid, strContains m.file_name sn = false ∧
        strContains m.file_name en = false)
    (hc1 : strContains c.file_name sn = false)
    (hc2 : strContains c.file_name en = true) :
    List.foldl (bookStep sn sa en ea) (false, "", []) (a :: mid ++ [c])
      = (false,
         (startContrib sa a).1 ++ concatTexts mid ++ (endContrib ea c).1,
         (startContrib sa a).2 ++ (endContrib ea c).2) := by
  have h1 : List.foldl (bookStep sn sa en ea) (false, "", []) (a :: mid)
      = (true, (startContrib sa a).1 ++ concatTexts mid,
         (startContrib sa a).2) := by
    rw [List.foldl_cons, bookStep_start sn sa en ea a _ ha,
      foldl_interior sn sa en ea mid hmid]
    simp
  rw [List.foldl_append, h1, List.foldl_cons, List.foldl_nil,
    bookStep_end sn sa en ea c _ hc1 hc2]

theorem aux_link_step_root (t h : String) (rest : List TocNode)
    (titles : List String) :
    extract_bookmarksAux (.link t h :: rest) "" titles
      = ((if t ∈ (titles ++ [t]).dropLast
            then t ++ toString ((titles ++ [t]).count t + 1) else t), h)
          :: extract_bookmarksAux rest "" (titles ++ [t]) := rfl

theorem extract_bookmarksAux_replicate (t h : String) :
    ∀ n k : Nat,
      extract_bookmarksAux (List.replicate n (.link t h)) ""
          (List.replicate k t)
        = (List.range n).map
            (fun i => (if k + i = 0 then t else t ++ toString (k + i + 2), h))
  | 0, _ => by simp [extract_bookmarksAux]
  | n+1, k => by
      rw [List.replicate_succ, aux_link_step_root,
        show List.replicate k t ++ [t] = List.replicate (k+1) t from
          (List.replicate_succ' ..).symm,
        extract_bookmarksAux_replicate t h n (k+1),
        List.range_succ_eq_map, List.map_cons, List.map_map]
      congr 1
      · have hd : (List.replicate (k+1) t).dropLast = List.replicate k t := by
          rw [List.replicate_succ']; simp
        have hcnt : (List.replicate (k+1) t).count t = k + 1 := by simp
        rw [hd, hcnt]
        by_cases hk : k = 0
        · subst hk; simp
        · have hmem : t ∈ List.replicate k t := by
            rw [List.mem_replicate]; exact ⟨hk, rfl⟩
          rw [if_pos hmem, if_neg (by omega : ¬ (k + 0 = 0))]
      · apply List.map_congr_left
        intro i _
        show (if k + 1 + i = 0 then t else t ++ toString (k + 1 + i + 2), h)
          = (if k + (i + 1) = 0 then t else t ++ toString (k + (i + 1) + 2), h)
        rw [show k + 1 + i = k + (i + 1) by omega]

/-! ## Claims -/

/-- C1 (the claim describes the documented intent; the code deviates):
with an empty end sentinel, `extract_text_by_bookmark` is supposed to keep
concatenating the full text of every document after the start document,
but the empty end name is a substring of every file name, so the very
first item after the start document takes the end branch, clears the flag
and contributes nothing: only the start document's text `"A"` is
returned, not `"A" ++ "B"`. -/
theorem c1_empty_sentinel_code_behavior :
    (extract_text_by_bookmark
        ⟨[⟨"a.html", [.text "A"]⟩, ⟨"b.html", [.text "B"]⟩], []⟩
        "a.html" "").1 = "A" ∧
    strContains "b.html" (hrefName "") = true ∧
    ("A" : String) ≠ "A" ++ getTextList [Node.text "B"] := by
  decide

/-- C2 counterexample: for two bookmarks both titled `"A"`,
`extract_bookmarks` emits `["A", "A3"]`, not `["A", "A2"]` — the
`titles` list already contains the current occurrence when
`titles.count(title) + 1` is computed. -/
theorem c2_counterexample :
    (extract_bookmarks [.link "A" "h1", .link "A" "h2"]).map Prod.fst
      ≠ ["A", "A2"] := by
  decide

/-- C2 amended: because the current title is appended to `titles` before
the duplicate check, the suffix is `str(count_of_occurrences_so_far
_including_the_current_one + 1)`: for `n+1` identical leaf titles the
emitted titles are `t, t3, t4, …` (the k-th later occurrence gets
`str(k+2)` appended), and `["A", "A"]` yields `["A", "A3"]`. -/
theorem c2_amended_duplicate_suffix :
    (∀ (t h : String) (n : Nat),
        (extract_bookmarks (List.replicate (n+1) (.link t h))).map Prod.fst
          = t :: (List.range n).map (fun i => t ++ toString (i + 3))) ∧
      (extract_bookmarks [.link "A" "h1", .link "A" "h2"]).map Prod.fst
        = ["A", "A3"] := by
  constructor
  · intro t h n
    have hrep := extract_bookmarksAux_replicate t h (n+1) 0
    have h0 : extract_bookmarks (List.replicate (n+1) (TocNode.link t h))
        = extract_bookmarksAux (List.replicate (n+1) (TocNode.link t h)) ""
            (List.replicate 0 t) := rfl
    rw [h0, hrep, List.map_map, List.range_succ_eq_map, List.map_cons,
      List.map_map]
    congr 1
    apply List.map_congr_left
    intro i _
    show (if 0 + (i + 1) = 0 then t else t ++ toString (0 + (i + 1) + 2))
      = t ++ toString (i + 3)
    rw [Nat.zero_add, if_neg (Nat.succ_ne_zero i)]
  · decide

/-- C3 counterexample: with `start_anchor = end_anchor = "s"` both lookups
resolve to the same node, so the `break` comparison against the end node
never fires on a following sibling; the sibling text `"Y"` is appended and
the result is not the start node's own text `"X"` alone. -/
theorem c3_counterexample :
    (extract_text_between_anchors
        [.elem "a" (some "s") [.text "X"], .elem "p" none [.text "Y"]]
        "s" "s").1
      ≠ Node.getText (.elem "a" (some "s") [.text "X"]) := by
  decide

/-- C3 amended: when both anchor lookups resolve to the same node, the
result is not that node's own text alone: the walk continues through the
following siblings (the end node, being the start node itself, never
occurs among them to trigger the break), so the result equals the
after-anchor extraction of the start anchor, additionally stripped. -/
theorem c3_amended_between_same_anchor (soup : Soup) (a : String)
    (e : Node) (pre post : List Node)
    (hf : findCtx soup a = some (e, pre, post))
    (hne : ∀ n ∈ post, nodeEq n e = false) :
    extract_text_between_anchors soup a a
      = (pyStrip (extract_text_after_anchor soup a).1, []) := by
  have ht := takeUntilEnd_eq_self e post hne
  simp [extract_text_between_anchors, extract_text_after_anchor, hf, ht]

/-- C3 witness: the amended fallback evaluated on a concrete two-node
document whose `s` node is followed by one sibling. -/
theorem c3_amended_between_same_anchor_witness :
    extract_text_between_anchors
        [.elem "a" (some "s") [.text "X"], .elem "p" none [.text "Y"]]
        "s" "s"
      = (pyStrip (extract_text_after_anchor
          [.elem "a" (some "s") [.text "X"], .elem "p" none [.text "Y"]]
          "s").1, []) :=
  c3_amended_between_same_anchor
    [.elem "a" (some "s") [.text "X"], .elem "p" none [.text "Y"]]
    "s" (.elem "a" (some "s") [.text "X"]) [] [.elem "p" none [.text "Y"]]
    rfl (by decide)

/-- C4 counterexample: on a span crossing three documents the returned
content keeps its leading whitespace (and the per-document pieces are
concatenated with no newline), so it is not trimmed of leading/trailing
whitespace as claimed. -/
theorem c4_counterexample :
    (extract_text_by_bookmark
        ⟨[⟨"a.html", [.elem "x" (some "s") [.text " X "]]⟩,
          ⟨"b.html", [.text "Y"]⟩,
          ⟨"c.html", [.text "Z", .elem "y" (some "e") [.text "W"]]⟩], []⟩
        "a.html#s" "c.html#e").1
      ≠ pyStrip (extract_text_by_bookmark
        ⟨[⟨"a.html", [.elem "x" (some "s") [.text " X "]]⟩,
          ⟨"b.html", [.text "Y"]⟩,
          ⟨"c.html", [.text "Z", .elem "y" (some "e") [.text "W"]]⟩], []⟩
        "a.html#s" "c.html#e").1 := by
  decide

/-- C4 amended: across a multi-document span the chapter content is the
direct concatenation — no separator and no final trim — of the start
document's start-branch segment, the full text of each interior document,
and the end document's end-branch segment; only the fragments inside each
helper are newline-joined (with the before-anchor segment individually
trimmed). -/
theorem c4_amended_multidoc_concat (s e : String) (a c : Item)
    (mid : List Item) (toc : List TocNode)
    (hne : hrefName s ≠ hrefName e)
    (ha : strContains a.file_name (hrefName s) = true)
    (hmid : ∀ m ∈ mid, strContains m.file_name (hrefName s) = false ∧
        strContains m.file_name (hrefName e) = false)
    (hc1 : strContains c.file_name (hrefName s) = false)
    (hc2 : strContains c.file_name (hrefName e) = true) :
    (extract_text_by_bookmark ⟨a :: mid ++ [c], toc⟩ s e).1
      = (startContrib (hrefAnchor s) a).1 ++ concatTexts mid
          ++ (endContrib (hrefAnchor e) c).1 := by
  have hf := foldl_multidoc (hrefName s) (hrefAnchor s) (hrefName e)
    (hrefAnchor e) a c mid ha hmid hc1 hc2
  have hu : extract_text_by_bookmark ⟨a :: mid ++ [c], toc⟩ s e
      = ((List.foldl (bookStep (hrefName s) (hrefAnchor s) (hrefName e)
            (hrefAnchor e)) (false, "", []) (a :: mid ++ [c])).2.1,
         (List.foldl (bookStep (hrefName s) (hrefAnchor s) (hrefName e)
            (hrefAnchor e)) (false, "", []) (a :: mid ++ [c])).2.2) := by
    simp only [extract_text_by_bookmark]
    rw [if_neg hne]
  rw [hu, hf]

/-- C4 witness: the amended composition evaluated on a concrete
three-document span. -/
theorem c4_amended_multidoc_concat_witness :
    (extract_text_by_bookmark
        ⟨⟨"a.html", [.elem "x" (some "s") [.text " X "]]⟩ ::
            [⟨"b.html", [.text "Y"]⟩]
            ++ [⟨"c.html", [.text "Z", .elem "y" (some "e") [.text "W"]]⟩],
          []⟩
        "a.html#s" "c.html#e").1
      = (startContrib (hrefAnchor "a.html#s")
            ⟨"a.html", [.elem "x" (some "s") [.text " X "]]⟩).1
          ++ concatTexts [⟨"b.html", [.text "Y"]⟩]
          ++ (endContrib (hrefAnchor "c.html#e")
            ⟨"c.html", [.text "Z", .elem "y" (some "e") [.text "W"]]⟩).1 :=
  c4_amended_multidoc_concat "a.html#s" "c.html#e"
    ⟨"a.html", [.elem "x" (some "s") [.text " X "]]⟩
    ⟨"c.html", [.text "Z", .elem "y" (some "e") [.text "W"]]⟩
    [⟨"b.html", [.text "Y"]⟩] []
    (by decide) (by decide) (by decide) (by decide) (by decide)

/-- C5: `split_text_by_bookmarks` produces exactly one chapter per
extracted bookmark, each carrying its bookmark's title, in bookmark
order (stated for every book, hence in particular for non-empty bookmark
lists). -/
theorem c5_chapters_match_bookmarks (book : Book) :
    (split_text_by_bookmarks book).length
        = (extract_bookmarks book.toc).length ∧
      (split_text_by_bookmarks book).map Chapter.title
        = (extract_bookmarks book.toc).map Prod.fst := by
  have h := chaptersOf_map_title book (extract_bookmarks book.toc)
  refine ⟨?_, h⟩
  simpa using congrArg List.length h

/-- C6 counterexample: the start document `"a.html"` is never found, yet
`extract_text_by_bookmark` returns the non-empty partial text `"Z"` taken
from the end document and logs no diagnostic at all. -/
theorem c6_counterexample :
    (extract_text_by_bookmark
        ⟨[⟨"b.html", [.text "Z", .elem "y" (some "e") [.text "W"]]⟩], []⟩
        "a.html#s" "b.html#e").1 ≠ "" ∧
    (extract_text_by_bookmark
        ⟨[⟨"b.html", [.text "Z", .elem "y" (some "e") [.text "W"]]⟩], []⟩
        "a.html#s" "b.html#e").2 = [] := by
  decide

/-- C6 amended: in the same-document branch a never-found document yields
`""` with the `"href not found."` diagnostic, and a missing anchor makes
the before/after helpers yield `""` with the `"Anchor not found in the
document."` diagnostic (all failures are non-fatal by construction); the
multi-document branch, however, logs nothing and may return a non-empty
partial result when the start document is never found (see the
counterexample). -/
theorem c6_amended_lookup_failure :
    (∀ (book : Book) (s e : String), hrefName s = hrefName e →
        (∀ it ∈ book.items, strContains it.file_name (hrefName s) = false) →
        extract_text_by_bookmark book s e = ("", ["href not found."])) ∧
      (∀ (soup : Soup) (a : String), findCtx soup a = none →
        extract_text_after_anchor soup a
            = ("", ["Anchor not found in the document."]) ∧
          extract_text_before_anchor soup a
            = ("", ["Anchor not found in the document."])) := by
  constructor
  · intro book s e heq hnone
    have hfi := findItem_eq_none (hrefName s) book.items hnone
    simp [extract_text_by_bookmark, ← heq, hfi]
  · intro soup a h
    exact ⟨by simp [extract_text_after_anchor, h],
      by simp [extract_text_before_anchor, h]⟩

/-- C6 witness: the same-document failure and both anchor failures
evaluated on concrete inputs. -/
theorem c6_amended_lookup_failure_witness :
    extract_text_by_bookmark ⟨[⟨"b.html", [.text "B"]⟩], []⟩
        "x.html" "x.html" = ("", ["href not found."]) ∧
      extract_text_after_anchor [Node.text "T"] "q"
        = ("", ["Anchor not found in the document."]) ∧
      extract_text_before_anchor [Node.text "T"] "q"
        = ("", ["Anchor not found in the document."]) :=
  ⟨c6_amended_lookup_failure.1 ⟨[⟨"b.html", [.text "B"]⟩], []⟩
      "x.html" "x.html" rfl (by decide),
   (c6_amended_lookup_failure.2 [Node.text "T"] "q" rfl).1,
   (c6_amended_lookup_failure.2 [Node.text "T"] "q" rfl).2⟩

/-- C7: `extract_text_between_anchors` falls back exactly to
`extract_text_after_anchor` on the start anchor when the end node is
absent, and to `extract_text_before_anchor` on the end anchor when the
start node is absent (text and diagnostics both coincide). -/
theorem c7_missing_anchor_fallback (soup : Soup) (s e : String) :
    (findCtx soup e = none →
        extract_text_between_anchors soup s e
          = extract_text_after_anchor soup s) ∧
      (findCtx soup s = none →
        extract_text_between_anchors soup s e
          = extract_text_before_anchor soup e) := by
  constructor
  · intro he
    cases hs : findCtx soup s with
    | none =>
        simp [extract_text_between_anchors, extract_text_after_anchor,
          extract_text_before_anchor, hs, he]
    | some r =>
        obtain ⟨se, pre, post⟩ := r
        simp [extract_text_between_anchors, hs, he]
  · intro hs
    simp [extract_text_between_anchors, hs]

/-- C7 witness: concrete fallbacks on a three-node document with a
missing end (resp. start) anchor. -/
theorem c7_missing_anchor_fallback_witness :
    (extract_text_between_anchors
        [.elem "x" (some "s") [.text "X"], .text " mid ",
         .elem "y" (some "e") [.text "Z"]] "s" "nope"
      = extract_text_after_anchor
        [.elem "x" (some "s") [.text "X"], .text " mid ",
         .elem "y" (some "e") [.text "Z"]] "s") ∧
    (extract_text_between_anchors
        [.elem "x" (some "s") [.text "X"], .text " mid ",
         .elem "y" (some "e") [.text "Z"]] "nope" "e"
      = extract_text_before_anchor
        [.elem "x" (some "s") [.text "X"], .text " mid ",
         .elem "y" (some "e") [.text "Z"]] "e") :=
  ⟨(c7_missing_anchor_fallback _ "s" "nope").1 rfl,
   (c7_missing_anchor_fallback _ "nope" "e").2 rfl⟩

/-- C8: extracting between anchors `s` and `e` over the three top-level
nodes `[id=s]"X"`, `<p>Y</p>`, `[id=e]"Z"` yields `"X\nY"`: the start
node's text plus the intermediate sibling, the end node excluded. -/
theorem c8_between_concrete :
    extract_text_between_anchors
      [.elem "x" (some "s") [.text "X"], .elem "p" none [.text "Y"],
       .elem "y" (some "e") [.text "Z"]] "s" "e"
      = ("X\nY", []) := by
  decide

/-- C9: the multi-document scan is a fold over the whole item collection
with no early exit: whatever state the prefix `l1` produced (in
particular after the end document reset the flag), an item whose file
name contains the start document name re-enters the start branch,
appends its extracted text to the accumulated result again, re-raises
the flag, and the scan continues over the remaining items `l2`; and for
distinct start/end names `extract_text_by_bookmark` is exactly this fold
over all of `book.items`. -/
theorem c9_rescan_appends :
    (∀ (sn sa en ea : String) (l1 l2 : List Item) (it : Item)
        (st : Bool × String × List String),
        strContains it.file_name sn = true →
        List.foldl (bookStep sn sa en ea) st (l1 ++ it :: l2)
          = List.foldl (bookStep sn sa en ea)
              (true,
               (List.foldl (bookStep sn sa en ea) st l1).2.1
                 ++ (startContrib sa it).1,
               (List.foldl (bookStep sn sa en ea) st l1).2.2
                 ++ (startContrib sa it).2) l2) ∧
      (∀ (book : Book) (s e : String), hrefName s ≠ hrefName e →
        extract_text_by_bookmark book s e
          = ((book.items.foldl
                (bookStep (hrefName s) (hrefAnchor s)
                  (hrefName e) (hrefAnchor e)) (false, "", [])).2.1,
             (book.items.foldl
                (bookStep (hrefName s) (hrefAnchor s)
                  (hrefName e) (hrefAnchor e)) (false, "", [])).2.2)) := by
  constructor
  · intro sn sa en ea l1 l2 it st h
    rw [List.foldl_append, List.foldl_cons, bookStep_start sn sa en ea it _ h]
  · intro book s e hne
    simp [extract_text_by_bookmark, hne]

/-- C9 witness: a start-named item sitting after the end document is
still visited and its full text is appended again. -/
theorem c9_rescan_appends_witness :
    List.foldl (bookStep "a" "" "b" "") (false, "", [])
        ([⟨"xa.html", [.text "S"]⟩, ⟨"b.html", [.text "E"]⟩]
          ++ ⟨"za.html", [.text "R"]⟩ :: [])
      = List.foldl (bookStep "a" "" "b" "")
          (true,
           (List.foldl (bookStep "a" "" "b" "") (false, "", [])
               [⟨"xa.html", [.text "S"]⟩, ⟨"b.html", [.text "E"]⟩]).2.1
             ++ (startContrib "" ⟨"za.html", [.text "R"]⟩).1,
           (List.foldl (bookStep "a" "" "b" "") (false, "", [])
               [⟨"xa.html", [.text "S"]⟩, ⟨"b.html", [.text "E"]⟩]).2.2
             ++ (startContrib "" ⟨"za.html", [.text "R"]⟩).2) [] ∧
      extract_text_by_bookmark ⟨[⟨"xa.html", [.text "S"]⟩], []⟩ "a" "b"
        = (((([⟨"xa.html", [.text "S"]⟩] : List Item).foldl
              (bookStep (hrefName "a") (hrefAnchor "a")
                (hrefName "b") (hrefAnchor "b")) (false, "", [])).2.1),
           ((([⟨"xa.html", [.text "S"]⟩] : List Item).foldl
              (bookStep (hrefName "a") (hrefAnchor "a")
                (hrefName "b") (hrefAnchor "b")) (false, "", [])).2.2)) :=
  ⟨c9_rescan_appends.1 "a" "" "b" ""
      [⟨"xa.html", [.text "S"]⟩, ⟨"b.html", [.text "E"]⟩] []
      ⟨"za.html", [.text "R"]⟩ (false, "", []) (by decide),
   c9_rescan_appends.2 ⟨[⟨"xa.html", [.text "S"]⟩], []⟩ "a" "b" (by decide)⟩

/-- C10: the recursive call made for a group restarts the `titles`
deduplication list at `[]`, so the same effective title occurring at the
top level and inside a group is emitted twice verbatim with no suffix. -/
theorem c10_group_fresh_titles :
    (∀ (t : String) (children rest : List TocNode) (pre : String)
        (titles : List String),
        extract_bookmarksAux (.group t children :: rest) pre titles
          = extract_bookmarksAux children t []
              ++ extract_bookmarksAux rest pre titles) ∧
      extract_bookmarks [.link "G|A" "h1", .group "G" [.link "A" "h2"]]
        = [("G|A", "h1"), ("G|A", "h2")] := by
  exact ⟨fun t children rest pre titles => rfl, by decide⟩
